import Mathlib

/-!
# Etcher homepage: variant dispatch, version gate, event logger, tracked links

A shallow embedding of the logic of

* `src/pages/success-banner/index.js` (namespace `SuccessBanner`): `eventLog`,
  `EtcherVersion`, `Link`, `Button`, `BannerEtcherProA`, `BannerEtcherProB`,
  `Footer`, `Page`;
* `src/pages/pro.js` (namespace `Pro`): `Content`, `Page`.

JavaScript values are modelled as follows.

* A string is a Lean `String`; `+` and template literals are `++`.
* `null` / `undefined` is `none`, for a value that may be a string or missing.
* The page URL is modelled by its query parameters (`URLSearchParams`), the only
  part of `location.href` the code reads.
* Side effects (a call of the tracker callback, a line on the console) are appended
  to the `effects` trace of an explicit `World`, in the order they happen.
* Component state set by `setState` is a structure, and a lifecycle method is a
  function from the old state to the new one.
-/

set_option autoImplicit false

/-! ## The host environment -/

/-- The query parameters of a URL, in document order, as (name, value) pairs. -/
structure URLSearchParams where
  entries : List (String × String)
deriving DecidableEq, Repr

/-- The first value associated with `name`, going through the pairs in order. -/
def searchParamsLookup : List (String × String) → String → Option String
  | [], _ => none
  | (k, v) :: rest, name => if k = name then some v else searchParamsLookup rest name

/-- The method `URLSearchParams.get(name)`: the first value associated with `name`,
or `null` when there is none. -/
def URLSearchParams.get (params : URLSearchParams) (name : String) : Option String :=
  searchParamsLookup params.entries name

/-- The metadata object handed to the tracker, a mapping from keys to strings, such
as `{ vn: 'a' }`. -/
abbrev Metadata := List (String × String)

/-- An observable side effect of the page. -/
inductive Effect
  /-- A call `track(eventName, meta)` of the callback of the tracking context. -/
  | track (eventName : String) (meta : Option Metadata)
  /-- A call `console.log(line)`: one line on the output channel. -/
  | consoleLog (line : String)
deriving DecidableEq, Repr

/-- The ambient state the code reads and writes: the query parameters of
`location.href`, and the trace of effects so far (oldest first). -/
structure World where
  location : URLSearchParams
  effects : List Effect
deriving DecidableEq, Repr

/-- The call `console.log(line)`. -/
def consoleLog (line : String) (w : World) : World :=
  { w with effects := w.effects ++ [Effect.consoleLog line] }

/-- The call `this.context.track(eventName, meta)`: the callback is supplied by the
`Tracker` ancestor, and the call is recorded in the trace. -/
def contextTrack (eventName : String) (meta : Option Metadata) (w : World) : World :=
  { w with effects := w.effects ++ [Effect.track eventName meta] }

/-- The tracker calls of a trace, in order. -/
def trackCalls : List Effect → List (String × Option Metadata)
  | [] => []
  | Effect.track eventName meta :: rest => (eventName, meta) :: trackCalls rest
  | Effect.consoleLog _ :: rest => trackCalls rest

/-- The console lines of a trace, in order. -/
def consoleLines : List Effect → List String
  | [] => []
  | Effect.track _ _ :: rest => consoleLines rest
  | Effect.consoleLog line :: rest => line :: consoleLines rest

/-- String conversion of a value that is a string or `undefined`, as done by `+`
with a string operand. -/
def jsToString : Option String → String
  | some s => s
  | none => "undefined"

/-- Truthiness of a value that is a string or `null`: `null` and the empty string
are falsy. -/
def jsTruthy : Option String → Bool
  | some s => decide (s ≠ "")
  | none => false

/-! ## JSON.stringify on an object with string properties -/

/-- Lower-case hexadecimal digit of a number below 16. -/
def hexDigit (n : Nat) : Char :=
  if n < 10 then Char.ofNat (48 + n) else Char.ofNat (87 + n)

/-- The escape of one character inside a JSON string literal (QuoteJSONString of
ECMAScript): the double quote (34) and the backslash (92) get a backslash, the
control characters have the short forms b, t, n, f, r or the form u00XX. -/
def jsonEscapeChar (c : Char) : List Char :=
  if c.toNat = 34 then [Char.ofNat 92, Char.ofNat 34]
  else if c.toNat = 92 then [Char.ofNat 92, Char.ofNat 92]
  else if c.toNat = 8 then [Char.ofNat 92, 'b']
  else if c.toNat = 9 then [Char.ofNat 92, 't']
  else if c.toNat = 10 then [Char.ofNat 92, 'n']
  else if c.toNat = 12 then [Char.ofNat 92, 'f']
  else if c.toNat = 13 then [Char.ofNat 92, 'r']
  else if c.toNat < 32 then
    [Char.ofNat 92, 'u', '0', '0', hexDigit (c.toNat / 16), hexDigit (c.toNat % 16)]
  else [c]

/-- The escaped characters of a string. -/
def jsonEscape : List Char → List Char
  | [] => []
  | c :: cs => jsonEscapeChar c ++ jsonEscape cs

/-- The JSON string literal of a string: the escaped characters between double
quotes. -/
def jsonQuote (s : String) : String :=
  ⟨Char.ofNat 34 :: (jsonEscape s.data ++ [Char.ofNat 34])⟩

/-- The members of a JSON object, each `"key":"value"`, separated by commas. -/
def jsonMembers : List (String × String) → String
  | [] => ""
  | [(k, v)] => jsonQuote k ++ ":" ++ jsonQuote v
  | (k, v) :: rest => jsonQuote k ++ ":" ++ jsonQuote v ++ "," ++ jsonMembers rest

/-- The function `JSON.stringify` on an object whose properties, in insertion order,
are the given (key, string value) pairs. -/
def JSON.stringify (properties : List (String × String)) : String :=
  "\x7b" ++ jsonMembers properties ++ "\x7d"

namespace SuccessBanner

/-! ## src/pages/success-banner/index.js -/

/-- The constant `CAMPAIGN_URL`. -/
def CAMPAIGN_URL : String :=
  "https://etcher.io/pro?utm_source=etcher_app&utm_campaign=etcher_pro"

/-- The function `eventLog`: it builds `data` from the description and returns a
closure. Building the closure reads and writes nothing; the closure, when invoked
in a world, reads `api-version` from the URL of that world and prints one line. -/
def eventLog (eventDesc : String) : World → World :=
  let data := "Banner " ++ eventDesc
  fun w =>
    let url := w.location
    if url.get "api-version" = some "1" then
      consoleLog (JSON.stringify [("command", "log"), ("data", data)]) w
    else
      consoleLog data w

/-- The props a `Link` or `Button` element is given in this file. -/
structure Props where
  href : String
  label : String
  meta : Option Metadata
  className : Option String
deriving DecidableEq, Repr

/-- An instance of the class `Link` (or of its subclass `Button`): the field `type`
set by the constructor, and the props. -/
structure Link where
  type : String
  props : Props
deriving DecidableEq, Repr

/-- The constructor of `Link`: `this.type = 'link'`. -/
def Link.new (props : Props) : Link :=
  { type := "link", props := props }

/-- The constructor of `Button extends Link`: after the constructor of `Link`,
`this.type = 'button ' + props.className`. -/
def Button.new (props : Props) : Link :=
  { Link.new props with type := "button " ++ jsToString props.className }

/-- The `onClick` handler of the anchor rendered by `Link.render`: it calls the
tracker, then calls `eventLog`, whose returned closure is dropped without being
invoked. -/
def Link.onClick (self : Link) (w : World) : World :=
  let w1 := contextTrack ("etcher_app " ++ self.props.label ++ " button") self.props.meta w
  let _logger : World → World := eventLog ("click " ++ self.props.label ++ " " ++ self.type)
  w1

/-- The anchor element rendered by `Link.render`. -/
structure Anchor where
  href : String
  target : String
  rel : String
  className : String
  onClick : World → World

/-- The method `Link.render`, inherited by `Button`. -/
def Link.render (self : Link) : Anchor :=
  { href := self.props.href
    target := "_blank"
    rel := "noopener noreferrer"
    className := self.type
    onClick := Link.onClick self }

/-- The state of the component `EtcherVersion`. -/
structure EtcherVersion.State where
  version : Option String
deriving DecidableEq, Repr

/-- The constructor of `EtcherVersion`: `this.state = { version: '' }`. -/
def EtcherVersion.new : EtcherVersion.State :=
  { version := some "" }

/-- The method `EtcherVersion.componentDidMount`: the state takes the value of the
query parameter `etcher-version`. -/
def EtcherVersion.componentDidMount (w : World) (_state : EtcherVersion.State) :
    EtcherVersion.State :=
  let version := w.location.get "etcher-version"
  { version := version }

/-- The `main` element a banner renders, reduced to its class name and to the
`Link` and `Button` elements inside it, in document order. -/
structure MainElement where
  className : String
  links : List Link
deriving DecidableEq, Repr

/-- The first `Link` of the `Footer`, around the Resin logo. -/
def Footer.resinLink : Link :=
  Link.new { href := "https://resin.io/", label := "Resin", meta := none, className := none }

/-- The second `Link` of the `Footer`, around the `EtcherVersion` element. -/
def Footer.versionLink : Link :=
  Link.new { href := "https://github.com/resin-io/etcher/blob/master/CHANGELOG.md",
             label := "Version", meta := none, className := none }

/-- The component `Footer`: its two `Link` elements, neither of which is given a
`meta` prop. -/
def Footer : List Link :=
  [Footer.resinLink, Footer.versionLink]

/-- The `Button` element of `BannerEtcherProA`. -/
def BannerEtcherProA.button : Link :=
  Button.new { className := some "variantA", label := "successBanner pro",
               href := CAMPAIGN_URL ++ "&utm_medium=vna", meta := some [("vn", "a")] }

/-- The component `BannerEtcherProA`. -/
def BannerEtcherProA.render : MainElement :=
  { className := "vertical center variantA"
    links := BannerEtcherProA.button :: Footer }

/-- The state of the component `BannerEtcherProB`. -/
structure BannerEtcherProB.State where
  legacy : Bool
deriving DecidableEq, Repr

/-- The constructor of `BannerEtcherProB`: `this.state = { legacy: false }`. -/
def BannerEtcherProB.new : BannerEtcherProB.State :=
  { legacy := false }

/-- The `Button` element of `BannerEtcherProB`; it is given no `className`. -/
def BannerEtcherProB.button : Link :=
  Button.new { label := "successBanner pro", meta := some [("vn", "b")],
               href := CAMPAIGN_URL ++ "&utm_medium=vnb", className := none }

/-- The method `BannerEtcherProB.render`. -/
def BannerEtcherProB.render (state : BannerEtcherProB.State) : MainElement :=
  let className := "vertical center " ++
    (if state.legacy then "legacy-background-color" else "new-background-color")
  { className := className
    links := BannerEtcherProB.button :: Footer }

/-- The method `BannerEtcherProB.componentDidMount`. The comparator imported from
the package `compare-versions` is the parameter `compareVersions`. In the branch
where `version` is truthy it is a non-empty string, which `jsToString` returns as
it is. -/
def BannerEtcherProB.componentDidMount (compareVersions : String → String → Int)
    (w : World) (_state : BannerEtcherProB.State) : BannerEtcherProB.State :=
  let version := w.location.get "etcher-version"
  if jsTruthy version then
    let legacy := decide (compareVersions (jsToString version) "1.4.4" < 1)
    { legacy := legacy }
  else
    { legacy := true }

/-- The banner element the page puts in its tree. -/
inductive BannerElement
  | BannerEtcherProA
  | BannerEtcherProB
deriving DecidableEq, Repr

/-- The state of the component `Page` of the success banner. -/
structure Page.State where
  vn : Option String
deriving DecidableEq, Repr

/-- The constructor of `Page`: `this.state = { vn: 'b' }`. -/
def Page.new : Page.State :=
  { vn := some "b" }

/-- The method `Page.render`, reduced to the banner it chooses:
`this.state.vn === 'b' ? <BannerEtcherProB /> : <BannerEtcherProA />`. -/
def Page.render (state : Page.State) : BannerElement :=
  if state.vn = some "b" then BannerElement.BannerEtcherProB
  else BannerElement.BannerEtcherProA

end SuccessBanner

/-! ## The version comparator -/

/-- The pieces of a string between its dots. -/
def versionSplit : List Char → List (List Char)
  | [] => [[]]
  | c :: cs =>
    if c = '.' then [] :: versionSplit cs
    else
      match versionSplit cs with
      | [] => [[c]]
      | piece :: pieces => (c :: piece) :: pieces

/-- The number a run of decimal digits denotes. -/
def decimalValue (digits : List Char) : Nat :=
  digits.foldl (fun n c => 10 * n + (c.toNat - 48)) 0

/-- The numeric components of a dotted version string. -/
def versionComponents (v : String) : List Nat :=
  (versionSplit v.data).map decimalValue

/-- A well-formed dotted-numeric version string: every piece between dots is a
non-empty run of decimal digits. -/
def isDottedNumeric (v : String) : Bool :=
  (versionSplit v.data).all (fun piece => !piece.isEmpty && piece.all Char.isDigit)

/-- Three-way comparison of a list of components with the empty list, whose missing
components count as zero: 1 when some component is positive, 0 otherwise. -/
def compareWithNone : List Nat → Int
  | [] => 0
  | a :: as => if 0 < a then 1 else compareWithNone as

/-- Component-wise three-way comparison, a missing trailing component counting as
zero: 1 when the first list is greater, -1 when it is smaller, 0 when equal. -/
def compareComponents : List Nat → List Nat → Int
  | [], bs => - compareWithNone bs
  | a :: as, [] => if 0 < a then 1 else compareWithNone as
  | a :: as, b :: bs =>
    if b < a then 1 else if a < b then -1 else compareComponents as bs

/-- Modelled from the spec: the function `compareVersions` of the third-party
package `compare-versions`, which the success banner imports and which is not
under src/. The spec says of it: "Comparison follows standard dotted-numeric
semantic-version ordering (numeric component-wise comparison, missing trailing
components treated as zero)", and the page tests its result with `< 1`, so the
result is positive, zero or negative as the first version is greater than, equal
to or less than the second. On strings that are not dotted-numeric the spec leaves
the result open; this model is only meant for dotted-numeric strings. -/
def compareVersions (v1 v2 : String) : Int :=
  compareComponents (versionComponents v1) (versionComponents v2)

/-- The order of the spec on lists of components, in its words "numeric
component-wise comparison, missing trailing components treated as zero": the first
list is less than or equal to the second when all components agree, or the first
one that differs is smaller in the first list. -/
def versionLE (a b : List Nat) : Prop :=
  (∀ i, a.getD i 0 = b.getD i 0) ∨
    ∃ i, a.getD i 0 < b.getD i 0 ∧ ∀ j, j < i → a.getD j 0 = b.getD j 0

namespace SuccessBanner

/-! ## The success banner as a transition system -/

/-- The state of one view of the success-banner page: the state of `Page`, of the
`BannerEtcherProB` and `EtcherVersion` components below it, whether the tree has
been mounted, and the world. -/
structure PageView where
  page : Page.State
  bannerB : BannerEtcherProB.State
  etcherVersion : EtcherVersion.State
  mounted : Bool
  world : World
deriving DecidableEq, Repr

/-- The view right after the constructors have run, for a page opened at `url`. -/
def PageView.initial (url : URLSearchParams) : PageView :=
  { page := Page.new
    bannerB := BannerEtcherProB.new
    etcherVersion := EtcherVersion.new
    mounted := false
    world := { location := url, effects := [] } }

/-- The `main` element on screen: that of the banner `Page.render` chooses. -/
def PageView.main (s : PageView) : MainElement :=
  match Page.render s.page with
  | BannerElement.BannerEtcherProA => BannerEtcherProA.render
  | BannerElement.BannerEtcherProB => BannerEtcherProB.render s.bannerB

/-- Mounting: the `componentDidMount` methods of the tree run. `Page` has none;
`BannerEtcherProB` runs its own when it is the banner in the tree; `EtcherVersion`
(in the footer of either banner) runs its own. -/
def PageView.didMount (s : PageView) : PageView :=
  { s with
    bannerB :=
      match Page.render s.page with
      | BannerElement.BannerEtcherProA => s.bannerB
      | BannerElement.BannerEtcherProB =>
          BannerEtcherProB.componentDidMount compareVersions s.world s.bannerB
    etcherVersion := EtcherVersion.componentDidMount s.world s.etcherVersion
    mounted := true }

/-- One step of a page view: the tree is mounted, a link or button on screen is
activated, or the URL changes without a remount. -/
inductive PageView.Step : PageView → PageView → Prop
  | didMount (s : PageView) (h : s.mounted = false) : PageView.Step s (PageView.didMount s)
  | click (s : PageView) (l : Link) (h : l ∈ (PageView.main s).links) :
      PageView.Step s { s with world := (Link.render l).onClick s.world }
  | navigate (s : PageView) (url : URLSearchParams) :
      PageView.Step s { s with world := { s.world with location := url } }

/-- The states a page view opened at `url` can reach. -/
inductive PageView.Reachable (url : URLSearchParams) : PageView → Prop
  | initial : PageView.Reachable url (PageView.initial url)
  | step (s t : PageView) (hs : PageView.Reachable url s) (ht : PageView.Step s t) :
      PageView.Reachable url t

end SuccessBanner

namespace Pro

/-! ## src/pages/pro.js -/

/-- The components `Page.render` passes to `Content` as children. `Features` is
always given `cols={2}` and the constant `locals.proFeatures`. -/
inductive Component
  | Description
  | Features (cols : Nat)
  | Rationale
deriving DecidableEq, Repr

/-- An element `<Content>children</Content>`: the layout, navigation and jumbotron
are the same for all children, so the element is given by its children. -/
structure Content where
  children : List Component
deriving DecidableEq, Repr

/-- The state of the component `Page` of the landing page. -/
structure Page.State where
  vn : Option String
deriving DecidableEq, Repr

/-- The constructor of `Page`: `this.state = { vn: 'a' }`. -/
def Page.new : Page.State :=
  { vn := some "a" }

/-- The method `Page.componentDidMount`: the state takes the value of the query
parameter `vn`. -/
def Page.componentDidMount (w : World) (_state : Page.State) : Page.State :=
  let params := w.location
  { vn := params.get "vn" }

/-- The method `Page.render`: a `switch` on `this.state.vn` with the case `'b'` and
a default. -/
def Page.render (state : Page.State) : Content :=
  if state.vn = some "b" then
    { children := [Component.Features 2, Component.Rationale] }
  else
    { children := [Component.Description, Component.Features 2] }

end Pro

/-! ## Lemmas on the version order -/

theorem getD_succ_eq_getD_tail (l : List Nat) (i : Nat) :
    l.getD (i + 1) 0 = l.tail.getD i 0 := by
  cases l <;> simp

/-- The order of the spec, unfolded at the first component. -/
theorem versionLE_head_tail (a b : List Nat) :
    versionLE a b ↔
      a.getD 0 0 < b.getD 0 0 ∨ (a.getD 0 0 = b.getD 0 0 ∧ versionLE a.tail b.tail) := by
  constructor
  · rintro (hall | ⟨i, hlt, hbelow⟩)
    · right
      refine ⟨hall 0, Or.inl ?_⟩
      intro i
      rw [← getD_succ_eq_getD_tail, ← getD_succ_eq_getD_tail]
      exact hall (i + 1)
    · cases i with
      | zero => exact Or.inl hlt
      | succ k =>
        right
        refine ⟨hbelow 0 (Nat.succ_pos k), Or.inr ⟨k, ?_, ?_⟩⟩
        · rw [← getD_succ_eq_getD_tail, ← getD_succ_eq_getD_tail]
          exact hlt
        · intro j hj
          rw [← getD_succ_eq_getD_tail, ← getD_succ_eq_getD_tail]
          exact hbelow (j + 1) (Nat.succ_lt_succ hj)
  · rintro (hlt | ⟨heq, hall | ⟨i, hlt, hbelow⟩⟩)
    · exact Or.inr ⟨0, hlt, fun j hj => absurd hj (Nat.not_lt_zero j)⟩
    · left
      intro i
      cases i with
      | zero => exact heq
      | succ k =>
        rw [getD_succ_eq_getD_tail, getD_succ_eq_getD_tail]
        exact hall k
    · right
      refine ⟨i + 1, ?_, ?_⟩
      · rw [getD_succ_eq_getD_tail, getD_succ_eq_getD_tail]
        exact hlt
      · intro j hj
        cases j with
        | zero => exact heq
        | succ k =>
          rw [getD_succ_eq_getD_tail, getD_succ_eq_getD_tail]
          exact hbelow k (Nat.lt_of_succ_lt_succ hj)

theorem versionLE_nil_nil : versionLE [] [] :=
  Or.inl (fun _ => rfl)

/-- Against the empty list, a list is less than or equal exactly when the comparison
gives a result below 1. -/
theorem compareWithNone_lt_one_iff (a : List Nat) :
    compareWithNone a < 1 ↔ versionLE a [] := by
  induction a with
  | nil => simp [compareWithNone, versionLE_nil_nil]
  | cons x xs ih =>
    rw [versionLE_head_tail]
    by_cases hx : 0 < x
    · have : x ≠ 0 := by omega
      simp [compareWithNone, hx, this]
    · have hx0 : x = 0 := by omega
      subst hx0
      simpa [compareWithNone] using ih

/-- The empty list is less than or equal to every list. -/
theorem versionLE_nil (b : List Nat) : versionLE [] b := by
  induction b with
  | nil => exact versionLE_nil_nil
  | cons y ys ih =>
    rw [versionLE_head_tail]
    by_cases hy : 0 < y
    · exact Or.inl (by simpa using hy)
    · have hy0 : y = 0 := by omega
      subst hy0
      exact Or.inr ⟨by simp, by simpa using ih⟩

theorem compareWithNone_nonneg (a : List Nat) : 0 ≤ compareWithNone a := by
  induction a with
  | nil => simp [compareWithNone]
  | cons x xs ih =>
    by_cases hx : 0 < x
    · simp [compareWithNone, hx]
    · simpa [compareWithNone, hx] using ih

/-- The comparator is below 1 exactly when the first list is less than or equal to
the second in the order of the spec. -/
theorem compareComponents_lt_one_iff (a b : List Nat) :
    compareComponents a b < 1 ↔ versionLE a b := by
  induction a generalizing b with
  | nil =>
    have h := compareWithNone_nonneg b
    have hle := versionLE_nil b
    simp only [compareComponents, hle, iff_true]
    omega
  | cons x xs ih =>
    cases b with
    | nil =>
      rw [versionLE_head_tail]
      by_cases hx : 0 < x
      · have : x ≠ 0 := by omega
        simp [compareComponents, hx, this]
      · have hx0 : x = 0 := by omega
        subst hx0
        simpa [compareComponents] using compareWithNone_lt_one_iff xs
    | cons y ys =>
      rw [versionLE_head_tail]
      by_cases h1 : y < x
      · have h2 : ¬ x < y := by omega
        have h3 : x ≠ y := by omega
        simp [compareComponents, h1, h2, h3]
      · by_cases h2 : x < y
        · simp [compareComponents, h1, h2]
        · have h3 : x = y := by omega
          subst h3
          simpa [compareComponents] using ih ys

/-- The order of the spec between a version of three components and 1.4.4, in
plain arithmetic. -/
theorem versionLE_three (major minor patch : Nat) :
    versionLE [major, minor, patch] [1, 4, 4]
      ↔ major < 1 ∨ (major = 1 ∧ (minor < 4 ∨ (minor = 4 ∧ patch ≤ 4))) := by
  rw [versionLE_head_tail, versionLE_head_tail, versionLE_head_tail]
  have h : versionLE [] [] := versionLE_nil_nil
  simp only [List.getD_cons_zero, List.tail_cons, h, and_true]
  omega

/-- The components the threshold string denotes. -/
theorem versionComponents_threshold : versionComponents "1.4.4" = [1, 4, 4] := by
  decide

/-! ## Lemmas on the host environment -/

theorem searchParamsLookup_absent (entries : List (String × String)) (name : String)
    (h : ∀ p, p ∈ entries → p.1 ≠ name) : searchParamsLookup entries name = none := by
  induction entries with
  | nil => rfl
  | cons p rest ih =>
    obtain ⟨k, v⟩ := p
    have hk : k ≠ name := h (k, v) (List.mem_cons_self _ _)
    simp only [searchParamsLookup, if_neg hk]
    exact ih (fun q hq => h q (List.mem_cons_of_mem _ hq))

theorem searchParamsLookup_first (before after : List (String × String))
    (name value : String) (h : ∀ p, p ∈ before → p.1 ≠ name) :
    searchParamsLookup (before ++ (name, value) :: after) name = some value := by
  induction before with
  | nil => simp [searchParamsLookup]
  | cons p rest ih =>
    obtain ⟨k, v⟩ := p
    have hk : k ≠ name := h (k, v) (List.mem_cons_self _ _)
    simp only [List.cons_append, searchParamsLookup, if_neg hk]
    exact ih (fun q hq => h q (List.mem_cons_of_mem _ hq))

theorem trackCalls_append (xs ys : List Effect) :
    trackCalls (xs ++ ys) = trackCalls xs ++ trackCalls ys := by
  induction xs with
  | nil => rfl
  | cons e rest ih => cases e <;> simp [trackCalls, ih]

theorem consoleLines_append (xs ys : List Effect) :
    consoleLines (xs ++ ys) = consoleLines xs ++ consoleLines ys := by
  induction xs with
  | nil => rfl
  | cons e rest ih => cases e <;> simp [consoleLines, ih]

/-- The text `JSON.stringify` gives for the object `{ command: 'log', data }`. -/
theorem stringify_command_log (data : String) :
    JSON.stringify [("command", "log"), ("data", data)]
      = "\x7b\"command\":\"log\",\"data\":" ++ jsonQuote data ++ "\x7d" := by
  have h : "\x7b" ++ (jsonQuote "command" ++ ":" ++ jsonQuote "log" ++ "," ++ (jsonQuote "data" ++ ":"))
      = "\x7b\"command\":\"log\",\"data\":" := by decide
  simp only [JSON.stringify, jsonMembers]
  rw [← h]
  simp only [String.append_assoc]

namespace SuccessBanner

/-- The effect of a click on a `Link` or `Button`: one tracker call, and nothing
else. -/
theorem Link.onClick_eq (self : Link) (w : World) :
    (Link.render self).onClick w =
      { w with effects := w.effects ++
          [Effect.track ("etcher_app " ++ self.props.label ++ " button") self.props.meta] } :=
  rfl

end SuccessBanner

/-! ## The event logger and the tracked links -/

namespace SuccessBanner

/-- C1, evaluated on the code: activating the `Button` with label "foo" and
className "bar" in a fresh world (with or without `api-version=1` in the URL) calls
the tracker once with the event name "etcher_app foo button", and leaves no line at
all on the console: the closure `eventLog` returns is never invoked. The line the
claim expects, "Banner click foo button bar", is what that closure would print. -/
theorem Button_click_foo_bar_logs_nothing :
    ((Link.render (Button.new
        { href := "https://etcher.io/", label := "foo", meta := some [("vn", "b")],
          className := some "bar" })).onClick
      { location := { entries := [] }, effects := [] }).effects
      = [Effect.track "etcher_app foo button" (some [("vn", "b")])]
    ∧ consoleLines ((Link.render (Button.new
        { href := "https://etcher.io/", label := "foo", meta := some [("vn", "b")],
          className := some "bar" })).onClick
      { location := { entries := [("api-version", "1")] }, effects := [] }).effects = []
    ∧ consoleLines (eventLog ("click " ++ "foo" ++ " " ++ (Button.new
        { href := "https://etcher.io/", label := "foo", meta := some [("vn", "b")],
          className := some "bar" }).type)
      { location := { entries := [] }, effects := [] }).effects
      = ["Banner click foo button bar"] := by
  refine ⟨by decide, by decide, by decide⟩

/-- No click on a `Link` or `Button` ever adds a line to the console. -/
theorem Link.onClick_consoleLines (self : Link) (w : World) :
    consoleLines ((Link.render self).onClick w).effects = consoleLines w.effects := by
  rw [Link.onClick_eq]
  simp [consoleLines_append, consoleLines]

/-- C4: every invocation of the closure `eventLog d` adds exactly one line to the
console and changes nothing else; the line depends on the `api-version` parameter
of the URL at the invocation: for the value "1" it is the JSON text of the object
with the keys `command` ("log") and `data` ("Banner " + d) in that order, for every
other value and for an absent parameter it is the string "Banner " + d. For
d = "click X" the two lines are `Banner click X` and
`{"command":"log","data":"Banner click X"}`. -/
theorem eventLog_emits_one_line :
    (∀ (d : String) (w : World),
      eventLog d w =
        { w with effects := w.effects ++ [Effect.consoleLog
            (if w.location.get "api-version" = some "1" then
              "\x7b\"command\":\"log\",\"data\":" ++ jsonQuote ("Banner " ++ d) ++ "\x7d"
            else "Banner " ++ d)] })
    ∧ (∀ (d : String) (w : World),
        JSON.stringify [("command", "log"), ("data", "Banner " ++ d)]
          = "\x7b\"command\":\"log\",\"data\":" ++ jsonQuote ("Banner " ++ d) ++ "\x7d"
        ∧ consoleLines (eventLog d w).effects = consoleLines w.effects ++
            [if w.location.get "api-version" = some "1" then
              JSON.stringify [("command", "log"), ("data", "Banner " ++ d)]
            else "Banner " ++ d])
    ∧ (eventLog "click X" { location := { entries := [] }, effects := [] }).effects
        = [Effect.consoleLog "Banner click X"]
    ∧ (eventLog "click X"
          { location := { entries := [("api-version", "1")] }, effects := [] }).effects
        = [Effect.consoleLog "\x7b\"command\":\"log\",\"data\":\"Banner click X\"\x7d"]
    ∧ (eventLog "click X"
          { location := { entries := [("api-version", "2")] }, effects := [] }).effects
        = [Effect.consoleLog "Banner click X"] := by
  have main : ∀ (d : String) (w : World),
      eventLog d w =
        { w with effects := w.effects ++ [Effect.consoleLog
            (if w.location.get "api-version" = some "1" then
              "\x7b\"command\":\"log\",\"data\":" ++ jsonQuote ("Banner " ++ d) ++ "\x7d"
            else "Banner " ++ d)] } := by
    intro d w
    by_cases h : w.location.get "api-version" = some "1"
    · simp only [eventLog, if_pos h, consoleLog, stringify_command_log]
    · simp only [eventLog, if_neg h, consoleLog]
  refine ⟨main, ?_, by decide, by decide, by decide⟩
  intro d w
  refine ⟨stringify_command_log _, ?_⟩
  rw [main d w, stringify_command_log]
  simp [consoleLines_append, consoleLines]

/-- C5: activating a `Link` or a `Button` with label L and meta M calls the tracker
with exactly the arguments ("etcher_app " + L + " button", M), once; the call of a
`Button` is the same as that of a `Link` with the same label and meta, whatever
their other props, while the class name of the rendered anchor is the type tag,
"link" for a `Link` and "button " + className for a `Button`. -/
theorem track_call_of_Link_and_Button (L : String) (M : Option Metadata) (p q : Props)
    (w : World) :
    trackCalls ((Link.render (Link.new { p with label := L, meta := M })).onClick w).effects
      = trackCalls w.effects ++ [("etcher_app " ++ L ++ " button", M)]
    ∧ trackCalls ((Link.render (Button.new { q with label := L, meta := M })).onClick w).effects
      = trackCalls w.effects ++ [("etcher_app " ++ L ++ " button", M)]
    ∧ (Link.render (Link.new { p with label := L, meta := M })).className = "link"
    ∧ (Link.render (Button.new { q with label := L, meta := M })).className
        = "button " ++ jsToString q.className := by
  refine ⟨?_, ?_, rfl, rfl⟩
  · rw [Link.onClick_eq]
    simp [trackCalls_append, trackCalls, Link.new]
  · rw [Link.onClick_eq]
    simp [trackCalls_append, trackCalls, Link.new, Button.new]

end SuccessBanner

/-! ## The version gate -/

namespace SuccessBanner

/-- A dotted-numeric string is not empty, so it is truthy. -/
theorem isDottedNumeric_ne_empty (v : String) (h : isDottedNumeric v = true) : v ≠ "" := by
  intro hv
  subst hv
  revert h
  decide

/-- C2: for a well-formed dotted-numeric string v given as the `etcher-version`
query parameter, the flag `legacy` that `BannerEtcherProB.componentDidMount` stores
is true if and only if v is less than or equal to 1.4.4 in the order of the spec
(component-wise numeric comparison, missing trailing components counting as zero). -/
theorem legacy_iff_version_le_threshold (v : String) (w : World)
    (state : BannerEtcherProB.State) (hv : isDottedNumeric v = true)
    (hw : w.location.get "etcher-version" = some v) :
    (BannerEtcherProB.componentDidMount compareVersions w state).legacy = true
      ↔ versionLE (versionComponents v) (versionComponents "1.4.4") := by
  have hne : v ≠ "" := isDottedNumeric_ne_empty v hv
  simp only [BannerEtcherProB.componentDidMount, hw, jsTruthy, jsToString]
  rw [if_pos (by simpa using hne)]
  simp only [decide_eq_true_eq, compareVersions]
  exact compareComponents_lt_one_iff _ _

/-- The flag stored for the versions 1.4.4, 1.3.9, 1.4.5 and 1.5.0. -/
theorem legacy_of_sample_versions :
    (BannerEtcherProB.componentDidMount compareVersions
        { location := { entries := [("etcher-version", "1.4.4")] }, effects := [] }
        BannerEtcherProB.new).legacy = true
    ∧ (BannerEtcherProB.componentDidMount compareVersions
        { location := { entries := [("etcher-version", "1.3.9")] }, effects := [] }
        BannerEtcherProB.new).legacy = true
    ∧ (BannerEtcherProB.componentDidMount compareVersions
        { location := { entries := [("etcher-version", "1.4.5")] }, effects := [] }
        BannerEtcherProB.new).legacy = false
    ∧ (BannerEtcherProB.componentDidMount compareVersions
        { location := { entries := [("etcher-version", "1.5.0")] }, effects := [] }
        BannerEtcherProB.new).legacy = false := by
  refine ⟨by decide, by decide, by decide, by decide⟩

/-- The version 1.4.5 is above the threshold in the order of the spec. -/
theorem not_versionLE_1_4_5 : ¬ versionLE [1, 4, 5] [1, 4, 4] := by
  rw [← compareComponents_lt_one_iff]
  decide

/-- Witness of C2 at the version 1.4.5, which is well formed and not legacy. -/
theorem legacy_iff_version_le_threshold_witness :
    isDottedNumeric "1.4.5" = true
    ∧ ((BannerEtcherProB.componentDidMount compareVersions
          { location := { entries := [("etcher-version", "1.4.5")] }, effects := [] }
          BannerEtcherProB.new).legacy = true
        ↔ versionLE (versionComponents "1.4.5") (versionComponents "1.4.4")) :=
  ⟨by decide,
   legacy_iff_version_le_threshold "1.4.5"
     { location := { entries := [("etcher-version", "1.4.5")] }, effects := [] }
     BannerEtcherProB.new (by decide) (by decide)⟩

/-- C3: when the `etcher-version` query parameter is absent, the flag `legacy`
stored at mount is true whatever the comparator is, and the banner is rendered with
the legacy background class. -/
theorem legacy_of_absent_version (compare : String → String → Int) (w : World)
    (state : BannerEtcherProB.State) (hw : w.location.get "etcher-version" = none) :
    (BannerEtcherProB.componentDidMount compare w state).legacy = true
    ∧ (BannerEtcherProB.render (BannerEtcherProB.componentDidMount compare w state)).className
        = "vertical center legacy-background-color" := by
  have h : BannerEtcherProB.componentDidMount compare w state = { legacy := true } := by
    simp [BannerEtcherProB.componentDidMount, hw, jsTruthy]
  rw [h]
  exact ⟨rfl, by decide⟩

/-- Witness of C3 at a URL without query parameters, with a comparator that would
answer 1 (not legacy) if it were asked. -/
theorem legacy_of_absent_version_witness :
    ({ location := { entries := [] }, effects := [] } : World).location.get "etcher-version"
      = none
    ∧ (BannerEtcherProB.componentDidMount (fun _ _ => 1)
        { location := { entries := [] }, effects := [] } BannerEtcherProB.new).legacy = true
    ∧ (BannerEtcherProB.render (BannerEtcherProB.componentDidMount (fun _ _ => 1)
        { location := { entries := [] }, effects := [] } BannerEtcherProB.new)).className
        = "vertical center legacy-background-color" :=
  ⟨rfl, legacy_of_absent_version (fun _ _ => 1)
    { location := { entries := [] }, effects := [] } BannerEtcherProB.new rfl⟩

end SuccessBanner

/-! ## The metadata of the tracker calls -/

namespace SuccessBanner

/-- C6, counterexample: the `Link` with label "Resin" of the `Footer` is on screen
in `BannerEtcherProB`, and activating it calls the tracker with `undefined` as
metadata, which is neither `{vn: "a"}` nor `{vn: "b"}`; so it is not the case that
every tracker call of a link or button of either banner passes such a mapping. -/
theorem footer_link_tracks_without_metadata :
    Footer.resinLink ∈ (BannerEtcherProB.render BannerEtcherProB.new).links
    ∧ trackCalls ((Link.render Footer.resinLink).onClick
        { location := { entries := [] }, effects := [] }).effects
      = [("etcher_app Resin button", none)]
    ∧ ¬ (∀ (main : MainElement),
          (main = BannerEtcherProA.render ∨ ∃ st, main = BannerEtcherProB.render st) →
          ∀ (l : Link), l ∈ main.links → ∀ (url : URLSearchParams) (c : String × Option Metadata),
            c ∈ trackCalls ((Link.render l).onClick { location := url, effects := [] }).effects →
            c.2 = some [("vn", "a")] ∨ c.2 = some [("vn", "b")]) := by
  refine ⟨by decide, by decide, ?_⟩
  intro h
  have h1 := h (BannerEtcherProB.render BannerEtcherProB.new)
    (Or.inr ⟨BannerEtcherProB.new, rfl⟩) Footer.resinLink
    (by decide) { entries := [] } ("etcher_app Resin button", none) (by decide)
  revert h1
  decide

/-- C6, amended: in either banner, every link or button on screen calls the tracker
exactly once when activated; the call of the `Button` of `BannerEtcherProA` passes
`{vn: "a"}`, that of the `Button` of `BannerEtcherProB` passes `{vn: "b"}`, and the
calls of the two `Footer` links pass no metadata (`undefined`). -/
theorem track_metadata_of_banner_links (main : MainElement) (variant : String)
    (hmain : (main = BannerEtcherProA.render ∧ variant = "a")
      ∨ (∃ st, main = BannerEtcherProB.render st) ∧ variant = "b")
    (l : Link) (hl : l ∈ main.links) (w : World) :
    ∃ (eventName : String) (meta : Option Metadata),
      trackCalls ((Link.render l).onClick w).effects
        = trackCalls w.effects ++ [(eventName, meta)]
      ∧ ((l ∈ Footer ∧ meta = none)
        ∨ (l ∉ Footer ∧ l.type ≠ "link" ∧ meta = some [("vn", variant)])) := by
  refine ⟨"etcher_app " ++ l.props.label ++ " button", l.props.meta, ?_, ?_⟩
  · rw [Link.onClick_eq]
    simp [trackCalls_append, trackCalls]
  · have hfooter : ∀ f, f ∈ Footer → f.props.meta = none := by decide
    rcases hmain with ⟨hA, hv⟩ | ⟨⟨st, hB⟩, hv⟩
    · subst hA hv
      rcases List.mem_cons.mp hl with h | h
      · subst h
        exact Or.inr (by decide)
      · exact Or.inl ⟨h, hfooter l h⟩
    · subst hB hv
      rcases List.mem_cons.mp hl with h | h
      · subst h
        exact Or.inr (by decide)
      · exact Or.inl ⟨h, hfooter l h⟩

/-- Witness of the amended C6 at the `Button` of `BannerEtcherProA`. -/
theorem track_metadata_of_banner_links_witness :
    BannerEtcherProA.button ∈ BannerEtcherProA.render.links
    ∧ ∃ (eventName : String) (meta : Option Metadata),
      trackCalls ((Link.render BannerEtcherProA.button).onClick
          { location := { entries := [] }, effects := [] }).effects
        = trackCalls ({ location := { entries := [] }, effects := [] } : World).effects
            ++ [(eventName, meta)]
      ∧ ((BannerEtcherProA.button ∈ Footer ∧ meta = none)
        ∨ (BannerEtcherProA.button ∉ Footer ∧ BannerEtcherProA.button.type ≠ "link"
          ∧ meta = some [("vn", "a")])) :=
  ⟨List.mem_cons_self _ _,
   track_metadata_of_banner_links BannerEtcherProA.render "a" (Or.inl ⟨rfl, rfl⟩) _
     (List.mem_cons_self _ _) { location := { entries := [] }, effects := [] }⟩

end SuccessBanner

/-! ## The landing page -/

namespace Pro

/-- C7: the tree `Page.render` of the landing page returns is a function of the
variant alone and is defined for every value: for the variant "b" it is `Content`
with the children `Features`, `Rationale` in that order, and for every other value
(a string other than "b", or null) it is `Content` with the children `Description`,
`Features` in that order. -/
theorem render_by_variant :
    Page.render { vn := some "b" }
      = { children := [Component.Features 2, Component.Rationale] }
    ∧ ∀ (vn : Option String), vn ≠ some "b" →
        Page.render { vn := vn }
          = { children := [Component.Description, Component.Features 2] } := by
  refine ⟨by decide, ?_⟩
  intro vn h
  simp [Page.render, h]

/-- Witness of C7 at the variants "a", null and "x", which all give the default
tree. -/
theorem render_by_variant_witness :
    (some "a" ≠ some "b"
      ∧ Page.render { vn := some "a" }
          = { children := [Component.Description, Component.Features 2] })
    ∧ ((none : Option String) ≠ some "b"
      ∧ Page.render { vn := none }
          = { children := [Component.Description, Component.Features 2] })
    ∧ (some "x" ≠ some "b"
      ∧ Page.render { vn := some "x" }
          = { children := [Component.Description, Component.Features 2] }) :=
  ⟨⟨by decide, render_by_variant.2 (some "a") (by decide)⟩,
   ⟨by decide, render_by_variant.2 none (by decide)⟩,
   ⟨by decide, render_by_variant.2 (some "x") (by decide)⟩⟩

/-- C8: the variant `Page.componentDidMount` of the landing page stores is the value
of the query parameter `vn` as `URLSearchParams.get` returns it, unchanged: null
when no parameter has the name `vn`, and otherwise the value of the first
parameter named `vn`, whatever that value is. -/
theorem componentDidMount_stores_raw_vn :
    (∀ (w : World) (state : Page.State),
      (Page.componentDidMount w state).vn = w.location.get "vn")
    ∧ (∀ (w : World) (state : Page.State),
        (∀ p, p ∈ w.location.entries → p.1 ≠ "vn") →
        (Page.componentDidMount w state).vn = none)
    ∧ (∀ (w : World) (state : Page.State) (before after : List (String × String))
        (value : String),
        (∀ p, p ∈ before → p.1 ≠ "vn") →
        w.location.entries = before ++ ("vn", value) :: after →
        (Page.componentDidMount w state).vn = some value) := by
  refine ⟨fun _ _ => rfl, ?_, ?_⟩
  · intro w state h
    exact searchParamsLookup_absent _ _ h
  · intro w state before after value h hw
    simp only [Page.componentDidMount, URLSearchParams.get, hw]
    exact searchParamsLookup_first _ _ _ _ h

/-- Witness of C8 at the query strings `vn=b`, empty, and `vn=x`. -/
theorem componentDidMount_stores_raw_vn_witness :
    (Page.componentDidMount { location := { entries := [("vn", "b")] }, effects := [] }
        Page.new).vn = some "b"
    ∧ (Page.componentDidMount { location := { entries := [] }, effects := [] }
        Page.new).vn = none
    ∧ (Page.componentDidMount { location := { entries := [("vn", "x")] }, effects := [] }
        Page.new).vn = some "x" :=
  ⟨componentDidMount_stores_raw_vn.2.2
      { location := { entries := [("vn", "b")] }, effects := [] } Page.new [] [] "b"
      (by decide) rfl,
   componentDidMount_stores_raw_vn.2.1
      { location := { entries := [] }, effects := [] } Page.new (by decide),
   componentDidMount_stores_raw_vn.2.2
      { location := { entries := [("vn", "x")] }, effects := [] } Page.new [] [] "x"
      (by decide) rfl⟩

end Pro

/-! ## The success-banner page -/

namespace SuccessBanner

/-- C9: `Page.render` of the success banner chooses `BannerEtcherProB` when the
variant is exactly "b" and `BannerEtcherProA` for every other value, and the
variant the constructor of the page sets is "b". -/
theorem banner_by_variant :
    (∀ (vn : Option String),
      (Page.render { vn := vn } = BannerElement.BannerEtcherProB ↔ vn = some "b")
      ∧ (Page.render { vn := vn } = BannerElement.BannerEtcherProA ↔ vn ≠ some "b"))
    ∧ Page.new.vn = some "b" := by
  refine ⟨?_, rfl⟩
  intro vn
  by_cases h : vn = some "b"
  · simp [Page.render, h]
  · simp [Page.render, h]

/-- Every step of a page view leaves the state of `Page` as it is. -/
theorem PageView.Step.page_eq (s t : PageView) (h : PageView.Step s t) : t.page = s.page := by
  cases h <;> rfl

/-- C10: in every state a view of the success-banner page can reach, from whatever
URL it was opened at and through mounting, clicks and changes of URL, the variant of
the page is "b", the banner `Page.render` chooses is `BannerEtcherProB`, never
`BannerEtcherProA`, and the element on screen is that of `BannerEtcherProB`. -/
theorem variant_is_always_b (url : URLSearchParams) (s : PageView)
    (h : PageView.Reachable url s) :
    s.page.vn = some "b"
    ∧ Page.render s.page = BannerElement.BannerEtcherProB
    ∧ Page.render s.page ≠ BannerElement.BannerEtcherProA
    ∧ PageView.main s = BannerEtcherProB.render s.bannerB := by
  have hvn : s.page.vn = some "b" := by
    induction h with
    | initial => rfl
    | step s t _ hst ih => rw [PageView.Step.page_eq s t hst]; exact ih
  have hr : Page.render s.page = BannerElement.BannerEtcherProB := by
    simp [Page.render, hvn]
  refine ⟨hvn, hr, ?_, ?_⟩
  · rw [hr]; decide
  · simp only [PageView.main, hr]

/-- Witness of C10 at a page opened with `?vn=a`, after it has been mounted and its
button has been activated. -/
theorem variant_is_always_b_witness :
    PageView.Reachable { entries := [("vn", "a")] }
      { PageView.didMount (PageView.initial { entries := [("vn", "a")] }) with
        world := (Link.render BannerEtcherProB.button).onClick
          (PageView.didMount (PageView.initial { entries := [("vn", "a")] })).world }
    ∧ Page.render (PageView.didMount (PageView.initial { entries := [("vn", "a")] })).page
        = BannerElement.BannerEtcherProB :=
  have hreach : PageView.Reachable { entries := [("vn", "a")] }
      { PageView.didMount (PageView.initial { entries := [("vn", "a")] }) with
        world := (Link.render BannerEtcherProB.button).onClick
          (PageView.didMount (PageView.initial { entries := [("vn", "a")] })).world } :=
    PageView.Reachable.step _ _
      (PageView.Reachable.step _ _ PageView.Reachable.initial
        (PageView.Step.didMount _ rfl))
      (PageView.Step.click _ BannerEtcherProB.button (List.mem_cons_self _ _))
  ⟨hreach, (variant_is_always_b _ _ hreach).2.1⟩

end SuccessBanner
